import Mathlib

/-!
# Verification of the QPROF dashboard (src/app.py)

A shallow embedding of the data-handling logic of the Streamlit dashboard
`src/app.py`: the failure-tolerant fetch wrappers, the presentation
formatters, the VOP status filter, the filter-dependent SQL text builders,
and the concentration / ordering logic of the rendered tables.

Python floats are modelled as exact rationals (`ℚ`); the Python `:,.2f` /
`:.2f` format specifiers are modelled by round-half-even to cents followed
by digit printing; pandas missing values (`None` / `NaN`) are the extra
constructors of `Val`.
-/

namespace QProf

/-- A scalar cell as pandas sees it: SQL NULL (Python `None`), a float `NaN`,
or a finite numeric value. -/
inductive Val where
  | none
  | nan
  | num (q : ℚ)
deriving DecidableEq

/-- `pd.isna`: true exactly on `None` and `NaN`. -/
def isna : Val → Bool
  | Val.none => true
  | Val.nan => true
  | Val.num _ => false

/-- Python `str.strip()` (both-ends whitespace trim). -/
def pyStrip (s : String) : String :=
  String.mk (((s.data.dropWhile Char.isWhitespace).reverse.dropWhile Char.isWhitespace).reverse)

/-- SQL `TRIM(x)` (`btrim` with the default space character). -/
def sqlTrim (s : String) : String :=
  String.mk (((s.data.dropWhile (fun c => c = ' ')).reverse.dropWhile (fun c => c = ' ')).reverse)

/-- ASCII lower-casing of one character (enough for the `LOWER(...) <> 'nan'`
comparison in the source SQL, whose only comparand is ASCII). -/
def asciiLower (c : Char) : Char :=
  if 'A' ≤ c ∧ c ≤ 'Z' then Char.ofNat (c.toNat + 32) else c

/-- SQL `LOWER(s)` on ASCII text. -/
def lowerStr (s : String) : String :=
  String.mk (s.data.map asciiLower)

/-- Python `s.replace(a, b)` for a single-character pattern and replacement:
substitutes every occurrence of `a` by `b`. -/
def pyReplaceChar (a b : Char) (s : String) : String :=
  String.mk (s.data.map (fun c => if c = a then b else c))

/-- The decimal digits of a natural number, most significant first, by
structural recursion on a fuel bound (so that concrete renderings reduce in
the kernel); the fuel never runs out when it starts above the number. -/
def natDigitsAux : ℕ → ℕ → List Char
  | 0, _ => []
  | fuel + 1, n =>
      if n < 10 then [Nat.digitChar n]
      else natDigitsAux fuel (n / 10) ++ [Nat.digitChar (n % 10)]

/-- The decimal digits of a natural number, most significant first
(`["0"]` for zero). -/
def natDigits (n : ℕ) : List Char := natDigitsAux (n + 1) n

/-- Insert a thousands separator after every three characters counted from the
head (used on the reversed digit list): `k` counts down the characters still
allowed before the next separator. -/
def groupSepAux : ℕ → List Char → List Char
  | _, [] => []
  | 0, c :: cs => ',' :: c :: groupSepAux 2 cs
  | k + 1, c :: cs => c :: groupSepAux k cs

/-- Insert the `,` thousands separator every three digits counted from the
right, as Python's `:,` format modifier does. -/
def group3 (l : List Char) : List Char :=
  (groupSepAux 3 l.reverse).reverse

/-- Exactly two decimal digits for a number below 100 (the fractional part of
a `.2f` rendering). -/
def twoDigits (n : ℕ) : String :=
  String.mk [Nat.digitChar (n / 10 % 10), Nat.digitChar (n % 10)]

/-- Exactly four digits (the `%Y` year field). -/
def fourDigits (n : ℕ) : String :=
  String.mk [Nat.digitChar (n / 1000 % 10), Nat.digitChar (n / 100 % 10),
    Nat.digitChar (n / 10 % 10), Nat.digitChar (n % 10)]

/-- Decode a most-significant-first digit string back to a natural number. -/
def decodeDigits (l : List Char) : ℕ :=
  l.foldl (fun a c => 10 * a + (c.toNat - 48)) 0

/-- Round-half-even to an integer: the rounding Python applies when printing
with a fixed number of decimals. -/
def roundHalfEven (q : ℚ) : ℤ :=
  let f := ⌊q⌋
  let r := q - f
  if r < 1 / 2 then f
  else if 1 / 2 < r then f + 1
  else if Even f then f else f + 1

/-- Python `f"{v:,.2f}"` on a finite value: sign, comma-grouped integer part,
a dot, and exactly two decimals. -/
def usGrouped2 (q : ℚ) : String :=
  let c := roundHalfEven (q * 100)
  (if c < 0 then "-" else "") ++
    String.mk (group3 (natDigits (c.natAbs / 100))) ++ "." ++ twoDigits (c.natAbs % 100)

/-- Python `f"{v:.2f}"` on a finite value: no grouping. -/
def usPlain2 (q : ℚ) : String :=
  let c := roundHalfEven (q * 100)
  (if c < 0 then "-" else "") ++
    String.mk (natDigits (c.natAbs / 100)) ++ "." ++ twoDigits (c.natAbs % 100)

/-- `f"{float(v):,.2f}"`: `float(None)` raises (`Option.none` here), `NaN`
prints as the literal text `nan`. -/
def floatFormatComma2 : Val → Option String
  | Val.none => Option.none
  | Val.nan => some "nan"
  | Val.num q => some (usGrouped2 q)

/-- `fmt_money` from src/app.py: format with the US convention, then swap the
separators through the `X` placeholder (`replace(",", "X")`,
`replace(".", ",")`, `replace("X", ".")`); any exception (only `float(None)`
here) yields the fallback text. -/
def fmt_money (v : Val) : String :=
  match floatFormatComma2 v with
  | some s => pyReplaceChar 'X' '.' (pyReplaceChar '.' ',' (pyReplaceChar ',' 'X' ("R$ " ++ s)))
  | Option.none => "R$ 0,00"

/-- `fmt_money_cell` from src/app.py: empty string on missing values,
otherwise `fmt_money`. -/
def fmt_money_cell (x : Val) : String :=
  if isna x then "" else fmt_money x

/-- `fmt_pct_cell` from src/app.py: empty string on missing values, otherwise
`f"{float(x) * 100:.2f}%"` with the decimal dot replaced by a comma. -/
def fmt_pct_cell (x : Val) : String :=
  if isna x then ""
  else
    match x with
    | Val.num q => pyReplaceChar '.' ',' (usPlain2 (q * 100) ++ "%")
    | _ => ""

/-- A datetime cell: `None`, `NaN`, or a concrete timestamp. -/
inductive DtVal where
  | dnone
  | dnan
  | ts (day month year hour minute second : ℕ)
deriving DecidableEq

/-- `fmt_dt` from src/app.py: missing values render as the `N/D` marker,
otherwise `strftime("%d/%m/%Y %H:%M:%S")`. -/
def fmt_dt : DtVal → String
  | DtVal.dnone => "N/D"
  | DtVal.dnan => "N/D"
  | DtVal.ts d mo y h mi s =>
      twoDigits d ++ "/" ++ twoDigits mo ++ "/" ++ fourDigits y ++ " " ++
        twoDigits h ++ ":" ++ twoDigits mi ++ ":" ++ twoDigits s

/-! ## Failure-tolerant fetch wrappers (src/app.py lines 56-83)

A fetch either succeeds with a value or raises; `Except String` models the
raised exception. The wrappers also return the list of `st.warning` notices
they emit. -/

/-- `safe_fetch_one` from src/app.py: on any exception return the supplied
default; emit a warning notice only when a KPI label was provided. -/
def safe_fetch_one (res : Except String (Option Val)) (dflt : Option Val)
    (label : Option String) : Option Val × List String :=
  match res with
  | Except.ok v => (v, [])
  | Except.error e =>
      (dflt,
        match label with
        | some l => ["⚠️ KPI indisponível: " ++ l ++ ". Motivo: " ++ e]
        | Option.none => [])

/-- `safe_fetch_df` from src/app.py: on any exception return an empty
dataframe and emit a warning notice. -/
def safe_fetch_df (res : Except String (List (List Val))) :
    List (List Val) × List String :=
  match res with
  | Except.ok df => (df, [])
  | Except.error e => ([], ["⚠️ Consulta falhou: " ++ e])

/-! ## The VOP status filter (src/app.py lines 224-236 and 394-400)

`situacao_operacao` is a nullable text column. The WHERE clause
`NULLIF(TRIM(s), '') IS NOT NULL AND LOWER(TRIM(s)) <> 'nan' AND
(TRIM(s))::numeric IN (4, 6)` is evaluated per row, left to right; the
`::numeric` cast of a non-numeric string raises a query-level error, which
aborts the whole statement. -/

/-- A row of `public.vops`, restricted to the fields the filter touches. -/
structure VopRow where
  situacao_operacao : Option String
  cedente : String
  vlr_aprovado : ℚ
deriving DecidableEq

/-- PostgreSQL `text::numeric`: optional sign, then digits with at most one
decimal point (at least one digit overall); anything else raises. -/
def sqlNumericParse (s : String) : Option ℚ :=
  let l := s.data
  let (neg, l2) :=
    match l with
    | '+' :: t => (false, t)
    | '-' :: t => (true, t)
    | t => (false, t)
  let ip := l2.takeWhile Char.isDigit
  let rest := l2.dropWhile Char.isDigit
  match rest with
  | [] =>
      if ip = [] then Option.none
      else some (if neg then -(decodeDigits ip : ℚ) else (decodeDigits ip : ℚ))
  | '.' :: fr =>
      if fr.all Char.isDigit ∧ (ip ≠ [] ∨ fr ≠ []) then
        some
          (if neg then -((decodeDigits ip : ℚ) + (decodeDigits fr : ℚ) / 10 ^ fr.length)
           else (decodeDigits ip : ℚ) + (decodeDigits fr : ℚ) / 10 ^ fr.length)
      else Option.none
  | _ => Option.none

/-- One row of the robust situation filter: `ok false` when a guard excludes
the row, `ok (q ∈ {4, 6})` when the cast succeeds, `error` when the cast of a
non-guarded non-numeric string aborts the query. -/
def vopSitFilter (r : VopRow) : Except String Bool :=
  match r.situacao_operacao with
  | Option.none => Except.ok false
  | some s =>
      let t := sqlTrim s
      if t = "" then Except.ok false
      else if lowerStr t = "nan" then Except.ok false
      else
        match sqlNumericParse t with
        | some q => Except.ok (decide (q = 4 ∨ q = 6))
        | Option.none => Except.error ("invalid input syntax for type numeric: " ++ t)

/-- The WHERE clause applied to every row of the table: the first row whose
cast raises aborts the whole query with that error. -/
def vopsWhere46 : List VopRow → Except String (List VopRow)
  | [] => Except.ok []
  | r :: rs =>
      match vopSitFilter r with
      | Except.error e => Except.error e
      | Except.ok b =>
          match vopsWhere46 rs with
          | Except.error e => Except.error e
          | Except.ok rest => Except.ok (if b then r :: rest else rest)

/-- The query as the dashboard sees it, through `safe_fetch_df`: a failed
query degrades to an empty dataframe. -/
def vopsWhere46Safe (rows : List VopRow) : List VopRow :=
  match vopsWhere46 rows with
  | Except.ok l => l
  | Except.error _ => []

/-- True when this row alone would abort the query (guards passed, cast
fails). -/
def rowAborts (r : VopRow) : Bool :=
  match vopSitFilter r with
  | Except.error _ => true
  | Except.ok _ => false

/-- The boolean a non-aborting row contributes to the filter. -/
def keep46 (r : VopRow) : Bool :=
  match vopSitFilter r with
  | Except.ok b => b
  | Except.error _ => false

/-! ## The concentration view (tab 3, src/app.py lines 298-347)

Modelled from the spec: the database view `vw_concentracao_cedente_sacado`
queried at line 311 is not under src/ (only its caller is). Per spec sections
3 and 4.1 and the caption at line 300 ("sacado não pode representar 20% ou
mais do vlr_aberto total do cedente"): open amounts are summed per
(cedente, sacado) pair, totalled per cedente, each pair's share is the
guarded quotient, and the flag compares the share with the fixed 20%
threshold inclusively. -/

/-- A raw ledger row (spec section 3, LedgerEntry), restricted to the fields
the concentration view uses. -/
structure LedgerEntry where
  cedente : String
  sacado : String
  vlr_aberto : ℚ
deriving DecidableEq

/-- A row of the concentration view. -/
structure ConcRow where
  cedente : String
  sacado : String
  vlr_aberto_sacado : ℚ
  vlr_aberto_cedente : ℚ
  pct_no_cedente : ℚ
  flag_ultrapassa_20 : Bool
deriving DecidableEq

/-- Modelled from the spec: the per-(cedente, sacado) summed open amount. -/
def sacadoSum (entries : List LedgerEntry) (c s : String) : ℚ :=
  (((entries.filter (fun e => e.cedente = c)).filter (fun e => e.sacado = s)).map
    (fun e => e.vlr_aberto)).sum

/-- Modelled from the spec: the per-cedente total open amount. -/
def cedenteTotal (entries : List LedgerEntry) (c : String) : ℚ :=
  ((entries.filter (fun e => e.cedente = c)).map (fun e => e.vlr_aberto)).sum

/-- Modelled from the spec: one row of the view for a (cedente, sacado) key;
the share is the division-guarded quotient and the flag is the inclusive
comparison with 20%. -/
def concRowFor (entries : List LedgerEntry) (k : String × String) : ConcRow :=
  let amt := sacadoSum entries k.1 k.2
  let tot := cedenteTotal entries k.1
  let pct := if tot = 0 then 0 else amt / tot
  { cedente := k.1
    sacado := k.2
    vlr_aberto_sacado := amt
    vlr_aberto_cedente := tot
    pct_no_cedente := pct
    flag_ultrapassa_20 := decide ((1 / 5 : ℚ) ≤ pct) }

/-- Modelled from the spec: the full view, one row per distinct
(cedente, sacado) key of the input. -/
def concentracaoView (entries : List LedgerEntry) : List ConcRow :=
  ((entries.map (fun e => (e.cedente, e.sacado))).dedup).map (concRowFor entries)

/-! ## Result ordering (src/app.py lines 224-236, 277-279 and 331-333)

An `ORDER BY` is modelled relationally: the executed query may return any
permutation of the matching rows that is sorted under the clause's
comparison; a `LIMIT n` takes the first `n` rows of such a permutation. -/

/-- A row of the "VOP por Cedente (Top 20)" grouped query (lines 224-236). -/
structure VopCedRow where
  cedente : String
  qtd : ℕ
  vlr_aprovado : ℚ
deriving DecidableEq

/-- `ORDER BY vlr_aprovado DESC LIMIT 20` (line 234-235): the output is the
first 20 rows of some permutation of the input that is weakly sorted by
approved amount descending. The clause names no further sort key. -/
def vopCedOrdered (input output : List VopCedRow) : Prop :=
  ∃ full : List VopCedRow, full.Perm input ∧
    full.Sorted (fun a b => b.vlr_aprovado ≤ a.vlr_aprovado) ∧
    output = full.take 20

/-- The ordering the spec claims for ranking: total descending with the
explicit tie-break of creditor id ascending. -/
def specRankOrder (a b : VopCedRow) : Prop :=
  b.vlr_aprovado < a.vlr_aprovado ∨
    (a.vlr_aprovado = b.vlr_aprovado ∧ a.cedente ≤ b.cedente)

/-- The comparison of `ORDER BY flag_ultrapassa_20 DESC, pct_no_cedente DESC,
vlr_aberto_sacado DESC` (line 331): booleans sort with `true` first under
DESC. -/
def concOrder (a b : ConcRow) : Prop :=
  b.flag_ultrapassa_20 < a.flag_ultrapassa_20 ∨
    (a.flag_ultrapassa_20 = b.flag_ultrapassa_20 ∧
      (b.pct_no_cedente < a.pct_no_cedente ∨
        (a.pct_no_cedente = b.pct_no_cedente ∧
          b.vlr_aberto_sacado ≤ a.vlr_aberto_sacado)))

/-- The drill-down ordering in the spec's words: exceeds-threshold flag
descending, then share descending, then amount descending. -/
def specDrillOrder (a b : ConcRow) : Prop :=
  (a.flag_ultrapassa_20 = true ∧ b.flag_ultrapassa_20 = false) ∨
    (a.flag_ultrapassa_20 = b.flag_ultrapassa_20 ∧
      (b.pct_no_cedente < a.pct_no_cedente ∨
        (a.pct_no_cedente = b.pct_no_cedente ∧
          b.vlr_aberto_sacado ≤ a.vlr_aberto_sacado)))

/-- The concentration query result (lines 311-333): some permutation of the
matching view rows, sorted under the ORDER BY clause, cut to the LIMIT. -/
def concResultOrdered (input output : List ConcRow) (n : ℕ) : Prop :=
  ∃ full : List ConcRow, full.Perm input ∧ full.Sorted concOrder ∧
    output = full.take n

/-! ## Tab rendering on empty results (src/app.py lines 283-292, 337-347) -/

/-- What a tab shows: an informational notice or a formatted table. -/
inductive Display where
  | info (msg : String)
  | table (rows : List (List String))
deriving DecidableEq

/-- A fetched row of `vw_risco_por_rotulo` (lines 259-266). -/
structure RotRow where
  rotulo : String
  qtd_titulos : ℕ
  risco_vlr_aberto : Val
  pct_total : Val
deriving DecidableEq

/-- Tab 2 (lines 281-292): the empty dataframe renders the explicit no-data
notice; otherwise the money and percentage columns are formatted and the
table is shown. -/
def renderRotuloTab (df : List RotRow) : Display :=
  if df.isEmpty then Display.info "Sem dados para exibir."
  else
    Display.table (df.map (fun r =>
      [r.rotulo, toString r.qtd_titulos, fmt_money_cell r.risco_vlr_aberto,
        fmt_pct_cell r.pct_total]))

/-- Tab 3 (lines 335-347): same empty-state behaviour for the concentration
table. -/
def renderConcTab (df : List ConcRow) : Display :=
  if df.isEmpty then Display.info "Sem dados para exibir."
  else
    Display.table (df.map (fun r =>
      [r.cedente, r.sacado, fmt_money_cell (Val.num r.vlr_aberto_sacado),
        fmt_money_cell (Val.num r.vlr_aberto_cedente),
        fmt_pct_cell (Val.num r.pct_no_cedente),
        toString r.flag_ultrapassa_20]))

/-! ## SQL text construction (src/app.py lines 259-279, 311-333, 387-411)

Each tab builds its query text from fixed fragments, chosen only by whether a
filter is present; the filter values themselves go into the bound-parameter
dictionary. -/

/-- A bound parameter value. -/
inductive PVal where
  | s (v : String)
  | i (v : ℤ)
deriving DecidableEq

/-- Tab 2 query construction (lines 259-279). -/
def buildRotuloSql (filtro_rotulo : String) (incluir_ni : Bool) (top_n : ℤ) :
    String × List (String × PVal) :=
  let sql0 := "SELECT rotulo, qtd_titulos, risco_vlr_aberto, pct_total FROM public.vw_risco_por_rotulo WHERE 1=1"
  let sql1 := if pyStrip filtro_rotulo ≠ "" then sql0 ++ " AND rotulo ILIKE :rotulo" else sql0
  let params1 : List (String × PVal) :=
    if pyStrip filtro_rotulo ≠ "" then
      [("rotulo", PVal.s ("%" ++ pyStrip filtro_rotulo ++ "%"))]
    else []
  let sql2 := if incluir_ni then sql1 else sql1 ++ " AND rotulo <> \x27N/I\x27"
  (sql2 ++ " ORDER BY risco_vlr_aberto DESC" ++ " LIMIT :top_n",
    params1 ++ [("top_n", PVal.i top_n)])

/-- Tab 3 query construction (lines 311-333). -/
def buildConcSql (filtro_cedente : String) (somente_alertas : Bool) (top_n : ℤ) :
    String × List (String × PVal) :=
  let sql0 := "SELECT cedente, sacado, vlr_aberto_sacado, vlr_aberto_cedente, pct_no_cedente, flag_ultrapassa_20 FROM public.vw_concentracao_cedente_sacado WHERE 1=1"
  let sql1 := if pyStrip filtro_cedente ≠ "" then sql0 ++ " AND cedente ILIKE :cedente" else sql0
  let params1 : List (String × PVal) :=
    if pyStrip filtro_cedente ≠ "" then
      [("cedente", PVal.s ("%" ++ pyStrip filtro_cedente ++ "%"))]
    else []
  let sql2 := if somente_alertas then sql1 ++ " AND flag_ultrapassa_20 = true" else sql1
  (sql2 ++ " ORDER BY flag_ultrapassa_20 DESC, pct_no_cedente DESC, vlr_aberto_sacado DESC" ++ " LIMIT :top_n",
    params1 ++ [("top_n", PVal.i top_n)])

/-- Tab 5 query construction (lines 387-411). -/
def buildVopsSql (filtro_cedente_vop filtro_cpf_cnpj : String)
    (incluir_somente_46 : Bool) : String × List (String × PVal) :=
  let sql0 := "SELECT * FROM public.vops WHERE 1=1"
  let sql1 :=
    if incluir_somente_46 then
      sql0 ++ " AND NULLIF(TRIM(situacao_operacao), \x27\x27) IS NOT NULL AND LOWER(TRIM(situacao_operacao)) <> \x27nan\x27 AND (TRIM(situacao_operacao))::numeric IN (4, 6)"
    else sql0
  let sql2 := if pyStrip filtro_cedente_vop ≠ "" then sql1 ++ " AND cedente ILIKE :cedente" else sql1
  let params2 : List (String × PVal) :=
    if pyStrip filtro_cedente_vop ≠ "" then
      [("cedente", PVal.s ("%" ++ pyStrip filtro_cedente_vop ++ "%"))]
    else []
  let sql3 := if pyStrip filtro_cpf_cnpj ≠ "" then sql2 ++ " AND cpf_cnpj ILIKE :cpf" else sql2
  let params3 : List (String × PVal) :=
    if pyStrip filtro_cpf_cnpj ≠ "" then
      params2 ++ [("cpf", PVal.s ("%" ++ pyStrip filtro_cpf_cnpj ++ "%"))]
    else params2
  (sql3 ++ " ORDER BY dta_neg DESC NULLS LAST" ++ " LIMIT 2000", params3)

/-! ## Helper lemmas about the formatting machinery -/

/-- The character substitution performed by the three-replace chain of
`fmt_money` (the `X` placeholder swaps the comma and the dot). -/
def mswap (c : Char) : Char :=
  if c = ',' then '.' else if c = '.' then ',' else if c = 'X' then '.' else c

/-- The character substitution of `fmt_pct_cell` (decimal dot to comma). -/
def pswap (c : Char) : Char :=
  if c = '.' then ',' else c

lemma mswap_step (c : Char) :
    (fun d => if d = 'X' then '.' else d)
      ((fun d => if d = '.' then ',' else d)
        ((fun d => if d = ',' then 'X' else d) c)) = mswap c := by
  by_cases h1 : c = ','
  · subst h1; decide
  · by_cases h2 : c = '.'
    · subst h2; decide
    · by_cases h3 : c = 'X'
      · subst h3; decide
      · simp [mswap, h1, h2, h3]

lemma moneySwap_data (s : String) :
    (pyReplaceChar 'X' '.' (pyReplaceChar '.' ',' (pyReplaceChar ',' 'X' s))).data
      = s.data.map mswap := by
  show ((s.data.map _).map _).map _ = _
  rw [List.map_map, List.map_map]
  exact List.map_congr_left (fun c _ => mswap_step c)

lemma pctSwap_data (s : String) :
    (pyReplaceChar '.' ',' s).data = s.data.map pswap := by
  show s.data.map _ = _
  exact List.map_congr_left (fun c _ => rfl)

lemma digitChar_isDigit {d : ℕ} (h : d < 10) : (Nat.digitChar d).isDigit = true := by
  interval_cases d <;> decide

lemma digitChar_toNat {d : ℕ} (h : d < 10) : (Nat.digitChar d).toNat - 48 = d := by
  interval_cases d <;> decide

lemma natDigitsAux_isDigit : ∀ (fuel n : ℕ), ∀ c ∈ natDigitsAux fuel n, c.isDigit = true := by
  intro fuel
  induction fuel with
  | zero =>
    intro n c hc
    simp [natDigitsAux] at hc
  | succ fuel ih =>
    intro n c hc
    rw [natDigitsAux] at hc
    split at hc
    · next h =>
      simp only [List.mem_singleton] at hc
      subst hc
      exact digitChar_isDigit h
    · next h =>
      rcases List.mem_append.mp hc with h1 | h2
      · exact ih (n / 10) c h1
      · simp only [List.mem_singleton] at h2
        subst h2
        exact digitChar_isDigit (Nat.mod_lt _ (by omega))

lemma natDigits_isDigit (n : ℕ) : ∀ c ∈ natDigits n, c.isDigit = true :=
  natDigitsAux_isDigit (n + 1) n

lemma decode_natDigitsAux : ∀ fuel n : ℕ, n < fuel → decodeDigits (natDigitsAux fuel n) = n := by
  intro fuel
  induction fuel with
  | zero =>
    intro n hn
    omega
  | succ fuel ih =>
    intro n hn
    rw [natDigitsAux]
    split
    · next h =>
      simp [decodeDigits, digitChar_toNat h]
    · next h =>
      have hdiv : n / 10 < fuel := by omega
      have h1 := ih (n / 10) hdiv
      simp only [decodeDigits, List.foldl_append, List.foldl_cons, List.foldl_nil] at h1 ⊢
      rw [h1, digitChar_toNat (Nat.mod_lt _ (by omega))]
      omega

lemma decode_natDigits (n : ℕ) : decodeDigits (natDigits n) = n :=
  decode_natDigitsAux (n + 1) n (by omega)

lemma mswap_of_isDigit {c : Char} (h : c.isDigit = true) : mswap c = c := by
  have h1 : c ≠ ',' := by rintro rfl; exact absurd h (by decide)
  have h2 : c ≠ '.' := by rintro rfl; exact absurd h (by decide)
  have h3 : c ≠ 'X' := by rintro rfl; exact absurd h (by decide)
  simp [mswap, h1, h2, h3]

lemma pswap_of_isDigit {c : Char} (h : c.isDigit = true) : pswap c = c := by
  have h2 : c ≠ '.' := by rintro rfl; exact absurd h (by decide)
  simp [pswap, h2]

lemma twoDigits_length (n : ℕ) : (twoDigits n).length = 2 := rfl

lemma twoDigits_isDigit (n : ℕ) : ∀ c ∈ (twoDigits n).data, c.isDigit = true := by
  intro c hc
  have h2 : c = Nat.digitChar (n / 10 % 10) ∨ c = Nat.digitChar (n % 10) := by
    simpa [twoDigits] using hc
  rcases h2 with rfl | rfl
  · exact digitChar_isDigit (Nat.mod_lt _ (by omega))
  · exact digitChar_isDigit (Nat.mod_lt _ (by omega))

lemma map_mswap_twoDigits (n : ℕ) : (twoDigits n).data.map mswap = (twoDigits n).data := by
  simp only [twoDigits]
  rw [List.map_cons, List.map_cons, List.map_nil,
    mswap_of_isDigit (digitChar_isDigit (Nat.mod_lt _ (by omega))),
    mswap_of_isDigit (digitChar_isDigit (Nat.mod_lt _ (by omega)))]

lemma map_pswap_natDigits (n : ℕ) : (natDigits n).map pswap = natDigits n := by
  rw [show (natDigits n).map pswap = (natDigits n).map id from
    List.map_congr_left (fun c hc => pswap_of_isDigit (natDigits_isDigit n c hc)),
    List.map_id]

lemma decode_twoDigits {n : ℕ} (h : n < 100) : decodeDigits (twoDigits n).data = n := by
  have ha : n / 10 % 10 < 10 := Nat.mod_lt _ (by omega)
  have hb : n % 10 < 10 := Nat.mod_lt _ (by omega)
  simp only [twoDigits, decodeDigits, List.foldl_cons, List.foldl_nil]
  rw [digitChar_toNat ha, digitChar_toNat hb]
  omega

lemma groupSepAux_mem : ∀ (l : List Char) (k : ℕ) (c : Char),
    c ∈ groupSepAux k l → c ∈ l ∨ c = ',' := by
  intro l
  induction l with
  | nil =>
    intro k c hc
    simp [groupSepAux] at hc
  | cons a as ih =>
    intro k c hc
    match k with
    | 0 =>
      rw [groupSepAux] at hc
      simp only [List.mem_cons] at hc
      rcases hc with h | h | h
      · right; exact h
      · left; simp [h]
      · rcases ih 2 c h with h2 | h2
        · left; exact List.mem_cons_of_mem a h2
        · right; exact h2
    | k + 1 =>
      rw [groupSepAux] at hc
      simp only [List.mem_cons] at hc
      rcases hc with h | h
      · left; simp [h]
      · rcases ih k c h with h2 | h2
        · left; exact List.mem_cons_of_mem a h2
        · right; exact h2

lemma group3_mem (l : List Char) (c : Char) (hc : c ∈ group3 l) : c ∈ l ∨ c = ',' := by
  rw [group3, List.mem_reverse] at hc
  rcases groupSepAux_mem _ _ _ hc with h | h
  · left; exact List.mem_reverse.mp h
  · right; exact h

lemma roundHalfEven_nonneg {q : ℚ} (h : 0 ≤ q) : 0 ≤ roundHalfEven q := by
  have hf : (0 : ℤ) ≤ ⌊q⌋ := Int.floor_nonneg.mpr h
  dsimp only [roundHalfEven]
  split_ifs <;> omega

lemma map_mswap_rs : ("R$ ".data).map mswap = "R$ ".data := by decide

lemma map_mswap_dot : (".".data).map mswap = ",".data := by decide

lemma map_pswap_dot : (".".data).map pswap = ",".data := by decide

lemma map_pswap_pctsign : ("%".data).map pswap = "%".data := by decide

lemma map_pswap_twoDigits (n : ℕ) : (twoDigits n).data.map pswap = (twoDigits n).data := by
  simp only [twoDigits]
  rw [List.map_cons, List.map_cons, List.map_nil,
    pswap_of_isDigit (digitChar_isDigit (Nat.mod_lt _ (by omega))),
    pswap_of_isDigit (digitChar_isDigit (Nat.mod_lt _ (by omega)))]

lemma money_intpart_chars (m : ℕ) :
    ∀ c ∈ (group3 (natDigits m)).map mswap, c.isDigit = true ∨ c = '.' := by
  intro c hc
  rcases List.mem_map.mp hc with ⟨c0, hc0, rfl⟩
  rcases group3_mem _ _ hc0 with hd | hcomma
  · left
    rw [mswap_of_isDigit (natDigits_isDigit m c0 hd)]
    exact natDigits_isDigit m c0 hd
  · right
    subst hcomma
    decide

/-- Structure of a money rendering of a nonnegative finite value: the
currency prefix, a dot-grouped integer part, the comma decimal point, and the
two-digit cents. -/
lemma fmt_money_num_eq (q : ℚ) (h : 0 ≤ q) :
    fmt_money (Val.num q) =
      "R$ " ++
        String.mk ((group3 (natDigits ((roundHalfEven (q * 100)).natAbs / 100))).map mswap) ++
        "," ++ twoDigits ((roundHalfEven (q * 100)).natAbs % 100) := by
  have hq : (0 : ℚ) ≤ q * 100 := by positivity
  have hc : ¬ (roundHalfEven (q * 100) < 0) := not_lt.mpr (roundHalfEven_nonneg hq)
  apply String.ext
  rw [show fmt_money (Val.num q)
      = pyReplaceChar 'X' '.' (pyReplaceChar '.' ',' (pyReplaceChar ',' 'X'
        ("R$ " ++ usGrouped2 q))) from rfl]
  rw [moneySwap_data]
  dsimp only [usGrouped2]
  rw [if_neg hc]
  simp only [String.data_append, List.map_append, List.append_assoc,
    map_mswap_twoDigits, map_mswap_rs, map_mswap_dot]
  rfl

/-- Structure of a percentage rendering of a nonnegative finite fraction: the
integer digits of the value multiplied by 100, the comma decimal point, the
two-digit fractional part, and the percent sign. -/
lemma fmt_pct_num_eq (q : ℚ) (h : 0 ≤ q) :
    fmt_pct_cell (Val.num q) =
      String.mk (natDigits ((roundHalfEven (q * 100 * 100)).natAbs / 100)) ++ "," ++
        twoDigits ((roundHalfEven (q * 100 * 100)).natAbs % 100) ++ "%" := by
  have hq : (0 : ℚ) ≤ q * 100 * 100 := by positivity
  have hc : ¬ (roundHalfEven (q * 100 * 100) < 0) := not_lt.mpr (roundHalfEven_nonneg hq)
  apply String.ext
  rw [show fmt_pct_cell (Val.num q) = pyReplaceChar '.' ',' (usPlain2 (q * 100) ++ "%") from rfl]
  rw [pctSwap_data]
  dsimp only [usPlain2]
  rw [if_neg hc]
  simp only [String.data_append, List.map_append, List.append_assoc,
    map_pswap_twoDigits, map_pswap_natDigits, map_pswap_dot, map_pswap_pctsign]
  rfl

/-! ## Helper lemmas about sums and the VOP filter -/

lemma sum_map_nonneg (l : List LedgerEntry) (h : ∀ e ∈ l, 0 ≤ e.vlr_aberto) :
    0 ≤ (l.map (fun e => e.vlr_aberto)).sum := by
  apply List.sum_nonneg
  intro x hx
  rcases List.mem_map.mp hx with ⟨e, he, rfl⟩
  exact h e he

lemma sum_map_filter_le (p : LedgerEntry → Bool) (l : List LedgerEntry)
    (h : ∀ e ∈ l, 0 ≤ e.vlr_aberto) :
    ((l.filter p).map (fun e => e.vlr_aberto)).sum ≤ (l.map (fun e => e.vlr_aberto)).sum := by
  induction l with
  | nil => simp
  | cons a as ih =>
    have ha := h a (List.mem_cons_self a as)
    have hrec := ih (fun e he => h e (List.mem_cons_of_mem a he))
    by_cases hp : p a
    · simp only [List.filter_cons, hp, if_true, List.map_cons, List.sum_cons]
      linarith
    · simp only [List.filter_cons, hp, if_false, List.map_cons, List.sum_cons,
        Bool.false_eq_true]
      linarith

lemma vopsWhere46_ok (rows : List VopRow) (h : ∀ r ∈ rows, rowAborts r = false) :
    vopsWhere46 rows = Except.ok (rows.filter keep46) := by
  induction rows with
  | nil => rfl
  | cons a as ih =>
    have ha := h a (List.mem_cons_self a as)
    have hrec := ih (fun r hr => h r (List.mem_cons_of_mem a hr))
    rw [vopsWhere46, hrec]
    cases hv : vopSitFilter a with
    | error e =>
      rw [rowAborts, hv] at ha
      simp at ha
    | ok b =>
      simp only [List.filter_cons, keep46, hv]

lemma vopsWhere46_error (rows : List VopRow) (r : VopRow) (hr : r ∈ rows)
    (ha : rowAborts r = true) : ∃ e, vopsWhere46 rows = Except.error e := by
  induction rows with
  | nil => cases hr
  | cons a as ih =>
    rw [vopsWhere46]
    cases hv : vopSitFilter a with
    | error e => exact ⟨e, rfl⟩
    | ok b =>
      rcases List.mem_cons.mp hr with rfl | hmem
      · rw [rowAborts, hv] at ha
        simp at ha
      · rcases ih hmem with ⟨e, he⟩
        exact ⟨e, by rw [he]⟩

/-! ## Concrete example data and evaluations -/

/-- Two debtors of one creditor with shares 0.2 and 0.8: the boundary case. -/
def exEntriesB : List LedgerEntry := [⟨"C1", "D1", 1⟩, ⟨"C1", "D2", 4⟩]

/-- The boundary row: share exactly 20%, flagged. -/
def rowBoundary : ConcRow := ⟨"C1", "D1", 1, 5, 1 / 5, true⟩

/-- Two debtors with shares 0.1999 and 0.8001: just below the boundary. -/
def exEntriesLow : List LedgerEntry := [⟨"C1", "D1", 1999⟩, ⟨"C1", "D2", 8001⟩]

/-- The sub-boundary row: share 19.99%, not flagged. -/
def rowLow : ConcRow := ⟨"C1", "D1", 1999, 10000, 1999 / 10000, false⟩

/-- Two debtors with shares 0.3 and 0.7. -/
def exEntriesC : List LedgerEntry := [⟨"C", "D1", 3⟩, ⟨"C", "D2", 7⟩]

/-- The 30%-share row, flagged by the fixed 20% rule. -/
def rowD1 : ConcRow := ⟨"C", "D1", 3, 10, 3 / 10, true⟩

lemma concRowFor_eq (entries : List LedgerEntry) (k : String × String) :
    concRowFor entries k =
      ⟨k.1, k.2, sacadoSum entries k.1 k.2, cedenteTotal entries k.1,
        if cedenteTotal entries k.1 = 0 then 0
          else sacadoSum entries k.1 k.2 / cedenteTotal entries k.1,
        decide ((1 / 5 : ℚ) ≤ if cedenteTotal entries k.1 = 0 then 0
          else sacadoSum entries k.1 k.2 / cedenteTotal entries k.1)⟩ := rfl

lemma mem_rowBoundary : rowBoundary ∈ concentracaoView exEntriesB := by
  have s1 : sacadoSum exEntriesB "C1" "D1" = 1 := by
    rw [show sacadoSum exEntriesB "C1" "D1" = ([1] : List ℚ).sum from rfl]
    simp
  have t1 : cedenteTotal exEntriesB "C1" = 5 := by
    rw [show cedenteTotal exEntriesB "C1" = ([1, 4] : List ℚ).sum from rfl]
    norm_num
  have hrow : concRowFor exEntriesB ("C1", "D1") = rowBoundary := by
    rw [concRowFor_eq, s1, t1]
    norm_num [rowBoundary, ConcRow.mk.injEq]
  have hview : concentracaoView exEntriesB
      = [concRowFor exEntriesB ("C1", "D1"), concRowFor exEntriesB ("C1", "D2")] := by
    rw [concentracaoView, show (exEntriesB.map (fun e => (e.cedente, e.sacado))).dedup
      = [("C1", "D1"), ("C1", "D2")] from rfl]
    rfl
  rw [hview, hrow]
  exact List.mem_cons_self _ _

lemma mem_rowLow : rowLow ∈ concentracaoView exEntriesLow := by
  have s1 : sacadoSum exEntriesLow "C1" "D1" = 1999 := by
    rw [show sacadoSum exEntriesLow "C1" "D1" = ([1999] : List ℚ).sum from rfl]
    simp
  have t1 : cedenteTotal exEntriesLow "C1" = 10000 := by
    rw [show cedenteTotal exEntriesLow "C1" = ([1999, 8001] : List ℚ).sum from rfl]
    norm_num
  have hrow : concRowFor exEntriesLow ("C1", "D1") = rowLow := by
    rw [concRowFor_eq, s1, t1]
    norm_num [rowLow, ConcRow.mk.injEq]
  have hview : concentracaoView exEntriesLow
      = [concRowFor exEntriesLow ("C1", "D1"), concRowFor exEntriesLow ("C1", "D2")] := by
    rw [concentracaoView, show (exEntriesLow.map (fun e => (e.cedente, e.sacado))).dedup
      = [("C1", "D1"), ("C1", "D2")] from rfl]
    rfl
  rw [hview, hrow]
  exact List.mem_cons_self _ _

lemma mem_rowD1 : rowD1 ∈ concentracaoView exEntriesC := by
  have s1 : sacadoSum exEntriesC "C" "D1" = 3 := by
    rw [show sacadoSum exEntriesC "C" "D1" = ([3] : List ℚ).sum from rfl]
    simp
  have t1 : cedenteTotal exEntriesC "C" = 10 := by
    rw [show cedenteTotal exEntriesC "C" = ([3, 7] : List ℚ).sum from rfl]
    norm_num
  have hrow : concRowFor exEntriesC ("C", "D1") = rowD1 := by
    rw [concRowFor_eq, s1, t1]
    norm_num [rowD1, ConcRow.mk.injEq]
  have hview : concentracaoView exEntriesC
      = [concRowFor exEntriesC ("C", "D1"), concRowFor exEntriesC ("C", "D2")] := by
    rw [concentracaoView, show (exEntriesC.map (fun e => (e.cedente, e.sacado))).dedup
      = [("C", "D1"), ("C", "D2")] from rfl]
    rfl
  rw [hview, hrow]
  exact List.mem_cons_self _ _

/-- A VOP row with a valid status code 4. -/
def vgood : VopRow := ⟨some "4", "C1", 100⟩

/-- A VOP row whose status text is non-numeric and not caught by the guards. -/
def vbad : VopRow := ⟨some "abc", "C1", 50⟩

/-- Tied creditors for the ranking tie-break scenario. -/
def rowA : VopCedRow := ⟨"A", 1, 100⟩

/-- Second tied creditor, with the larger id. -/
def rowB : VopCedRow := ⟨"B", 1, 100⟩

/-- A concentration row used to exercise the drill-down ordering. -/
def drillRow : ConcRow := ⟨"C", "D1", 5, 10, 1 / 2, true⟩

lemma roundHalfEven_intCast (z : ℤ) : roundHalfEven ((z : ℚ)) = z := by
  dsimp only [roundHalfEven]
  rw [Int.floor_intCast]
  norm_num

/-! ## Claim theorems -/

/-- C1: for every debtor exposure row of the concentration view, the
exceeds-threshold flag is true if and only if the debtor's share of the
creditor's total open amount is at least the 20% threshold — the comparison
is inclusive, so a share exactly equal to the threshold is flagged and a
share strictly below it is not. -/
theorem claim_C1_flag_iff_threshold (entries : List LedgerEntry) (r : ConcRow)
    (hr : r ∈ concentracaoView entries) :
    r.flag_ultrapassa_20 = true ↔ (1 / 5 : ℚ) ≤ r.pct_no_cedente := by
  rcases List.mem_map.mp hr with ⟨k, _, rfl⟩
  rw [concRowFor_eq]
  exact decide_eq_true_iff

/-- C1 witness: on the boundary input (share exactly 0.2) the flag is true,
and on the sub-boundary input (share 0.1999) it is false. -/
theorem claim_C1_witness :
    (rowBoundary.flag_ultrapassa_20 = true ↔ (1 / 5 : ℚ) ≤ rowBoundary.pct_no_cedente) ∧
      (rowLow.flag_ultrapassa_20 = true ↔ (1 / 5 : ℚ) ≤ rowLow.pct_no_cedente) :=
  ⟨claim_C1_flag_iff_threshold exEntriesB rowBoundary mem_rowBoundary,
    claim_C1_flag_iff_threshold exEntriesLow rowLow mem_rowLow⟩

/-- C4: for nonnegative input amounts, every share of the concentration view
equals amount divided by the creditor total when that total is positive, is
defined as 0 when the total is 0 (the division is guarded, never an error),
and always lies in the interval from 0 to 1. -/
theorem claim_C4_share_bounds (entries : List LedgerEntry)
    (h : ∀ e ∈ entries, 0 ≤ e.vlr_aberto) (r : ConcRow)
    (hr : r ∈ concentracaoView entries) :
    0 ≤ r.pct_no_cedente ∧ r.pct_no_cedente ≤ 1 ∧
      (r.vlr_aberto_cedente = 0 → r.pct_no_cedente = 0) ∧
      (0 < r.vlr_aberto_cedente →
        r.pct_no_cedente = r.vlr_aberto_sacado / r.vlr_aberto_cedente) := by
  rcases List.mem_map.mp hr with ⟨k, _, rfl⟩
  have hsub : ∀ e ∈ entries.filter (fun e => decide (e.cedente = k.1)), 0 ≤ e.vlr_aberto :=
    fun e he => h e (List.mem_of_mem_filter he)
  have hamt : 0 ≤ sacadoSum entries k.1 k.2 := by
    apply sum_map_nonneg
    intro e he
    exact hsub e (List.mem_of_mem_filter he)
  have hle : sacadoSum entries k.1 k.2 ≤ cedenteTotal entries k.1 :=
    sum_map_filter_le _ _ hsub
  rw [concRowFor_eq]
  by_cases htot : cedenteTotal entries k.1 = 0
  · refine ⟨by rw [if_pos htot], by rw [if_pos htot]; norm_num,
      fun _ => by rw [if_pos htot], fun hpos => absurd htot (by positivity)⟩
  · have htot0 : 0 ≤ cedenteTotal entries k.1 := le_trans hamt hle
    have hpos : 0 < cedenteTotal entries k.1 := lt_of_le_of_ne htot0 (Ne.symm htot)
    refine ⟨by rw [if_neg htot]; exact div_nonneg hamt htot0,
      by rw [if_neg htot]; exact (div_le_one hpos).mpr hle,
      fun h0 => absurd h0 htot, fun _ => by rw [if_neg htot]⟩

/-- C4 witness: on the boundary input the share is 0.2, within bounds, and
equals the quotient of the amounts. -/
theorem claim_C4_witness :
    0 ≤ rowBoundary.pct_no_cedente ∧ rowBoundary.pct_no_cedente ≤ 1 ∧
      (rowBoundary.vlr_aberto_cedente = 0 → rowBoundary.pct_no_cedente = 0) ∧
      (0 < rowBoundary.vlr_aberto_cedente →
        rowBoundary.pct_no_cedente = rowBoundary.vlr_aberto_sacado / rowBoundary.vlr_aberto_cedente) :=
  claim_C4_share_bounds exEntriesB
    (by
      intro e he
      have h2 : e = (⟨"C1", "D1", 1⟩ : LedgerEntry) ∨ e = (⟨"C1", "D2", 4⟩ : LedgerEntry) := by
        simpa [exEntriesB] using he
      rcases h2 with rfl | rfl <;> norm_num)
    rowBoundary mem_rowBoundary

/-- C5 counterexample: the flag of the view is computed against the fixed 20%
threshold, not against a supplied one: on a row whose share is 0.3 the flag
is true, while a computation against a supplied threshold of 0.5 would have
to yield false (0.3 is below 0.5). -/
theorem claim_C5_counterexample :
    rowD1 ∈ concentracaoView exEntriesC ∧ rowD1.flag_ultrapassa_20 = true ∧
      ¬ ((1 / 2 : ℚ) ≤ rowD1.pct_no_cedente) :=
  ⟨mem_rowD1, rfl, by norm_num [rowD1]⟩

/-- C5 amended: the concentration threshold is hardcoded at 20% (the view
column `flag_ultrapassa_20`, the tab caption and the alert checkbox all fix
it); every row's flag is computed against the constant 0.20, and no threshold
parameter exists in the computation. -/
theorem claim_C5_amended (entries : List LedgerEntry) (r : ConcRow)
    (hr : r ∈ concentracaoView entries) :
    r.flag_ultrapassa_20 = decide ((1 / 5 : ℚ) ≤ r.pct_no_cedente) := by
  rcases List.mem_map.mp hr with ⟨k, _, rfl⟩
  rw [concRowFor_eq]

/-- C5 witness: the hardcoded-threshold flag evaluation at the 30%-share
row. -/
theorem claim_C5_witness :
    rowD1.flag_ultrapassa_20 = decide ((1 / 5 : ℚ) ≤ rowD1.pct_no_cedente) :=
  claim_C5_amended exEntriesC rowD1 mem_rowD1

/-- C2 counterexample: one VOP row with the unparsable status text `abc`
does not merely get skipped — the `::numeric` cast aborts the whole query,
and through `safe_fetch_df` the dashboard receives an empty result instead
of the aggregate of the remaining valid row; no skipped-row counter exists. -/
theorem claim_C2_counterexample :
    vopsWhere46 [vgood, vbad]
        = Except.error ("invalid input syntax for type numeric: " ++ "abc") ∧
      vopsWhere46Safe [vgood, vbad] = [] ∧ vopsWhere46Safe [vgood] = [vgood] :=
  ⟨rfl, rfl, rfl⟩

/-- C2 amended: a malformed status that is NULL, empty or the literal text
`nan` is excluded row by row and the remaining rows are aggregated; but any
other unparsable status text aborts the entire query, which the safe fetch
degrades to an empty result — there is no skipped-row counter. -/
theorem claim_C2_amended :
    (∀ rows : List VopRow, (∀ r ∈ rows, rowAborts r = false) →
        vopsWhere46 rows = Except.ok (rows.filter keep46)) ∧
      (∀ rows : List VopRow, ∀ r ∈ rows, rowAborts r = true →
        vopsWhere46Safe rows = []) := by
  constructor
  · exact vopsWhere46_ok
  · intro rows r hr ha
    rcases vopsWhere46_error rows r hr ha with ⟨e, he⟩
    rw [vopsWhere46Safe, he]

/-- C2 witness: the guarded-row path on a good row and the abort path on the
bad row. -/
theorem claim_C2_witness :
    vopsWhere46 [vgood] = Except.ok ([vgood].filter keep46) ∧
      vopsWhere46Safe [vbad] = [] :=
  ⟨claim_C2_amended.1 [vgood]
      (by
        intro r hrm
        have h2 : r = vgood := by simpa using hrm
        subst h2
        rfl),
    claim_C2_amended.2 [vbad] vbad (List.mem_cons_self _ _) rfl⟩

/-- C3 counterexample: a failing `safe_fetch_one` without a KPI label (the
last-update fetch at line 158 passes none) degrades to the default silently,
emitting no informational notice. -/
theorem claim_C3_counterexample :
    safe_fetch_one (Except.error "connection refused") Option.none Option.none
      = (Option.none, ([] : List String)) := rfl

/-- C3 amended: every data-access failure degrades to the empty dataframe or
the supplied default instead of propagating; `safe_fetch_df` always also
emits a warning notice, while `safe_fetch_one` emits one only when a KPI
label was supplied and is otherwise silent. -/
theorem claim_C3_amended :
    (∀ e : String,
        safe_fetch_df (Except.error e) = ([], ["⚠️ Consulta falhou: " ++ e]) ∧
          (safe_fetch_df (Except.error e)).1 = (safe_fetch_df (Except.ok [])).1) ∧
      (∀ e : String, ∀ d : Option Val, ∀ l : Option String,
        (safe_fetch_one (Except.error e) d l).1 = d) ∧
      (∀ e l : String, ∀ d : Option Val,
        (safe_fetch_one (Except.error e) d (some l)).2
          = ["⚠️ KPI indisponível: " ++ l ++ ". Motivo: " ++ e]) ∧
      (∀ e : String, ∀ d : Option Val,
        (safe_fetch_one (Except.error e) d Option.none).2 = []) :=
  ⟨fun _ => ⟨rfl, rfl⟩, fun _ _ l => by cases l <;> rfl, fun _ _ _ => rfl,
    fun _ _ => rfl⟩

/-- C6 counterexample: with two creditors tied at total 100, the output that
lists creditor B before creditor A is a legitimate result of
`ORDER BY vlr_aprovado DESC` (which names no tie-break), yet it violates the
claimed creditor-id-ascending tie-break. -/
theorem claim_C6_counterexample :
    vopCedOrdered [rowA, rowB] [rowB, rowA] ∧
      ¬ List.Sorted specRankOrder [rowB, rowA] := by
  constructor
  · refine ⟨[rowB, rowA], List.Perm.swap rowA rowB [], ?_, rfl⟩
    refine List.sorted_cons.mpr ⟨?_, List.sorted_singleton _⟩
    intro b hb
    have h2 : b = rowA := by simpa using hb
    subst h2
    norm_num [rowA, rowB]
  · intro hs
    have h := (List.sorted_cons.mp hs).1 rowA (List.mem_cons_self _ _)
    rcases h with h1 | ⟨_, h3⟩
    · norm_num [rowA, rowB, specRankOrder] at h1
    · have h4 : ("B" : String) ≤ "A" := h3
      rw [String.le_iff_toList_le] at h4
      exact absurd h4 (by decide)

/-- C6 amended: the ranking queries order by total descending only; every
valid result is weakly sorted by total, but creditors with equal totals have
no specified relative order — the same tied input admits two different valid
outputs. -/
theorem claim_C6_amended :
    (∀ input output : List VopCedRow, vopCedOrdered input output →
        output.Sorted (fun a b => b.vlr_aprovado ≤ a.vlr_aprovado)) ∧
      (vopCedOrdered [rowA, rowB] [rowA, rowB] ∧
        vopCedOrdered [rowA, rowB] [rowB, rowA] ∧
        ([rowA, rowB] : List VopCedRow) ≠ [rowB, rowA]) := by
  refine ⟨?_, ?_, ?_, ?_⟩
  · rintro input output ⟨full, _, hsort, rfl⟩
    exact List.Pairwise.sublist (List.take_sublist _ _) hsort
  · refine ⟨[rowA, rowB], List.Perm.refl _, ?_, rfl⟩
    refine List.sorted_cons.mpr ⟨?_, List.sorted_singleton _⟩
    intro b hb
    have h2 : b = rowB := by simpa using hb
    subst h2
    norm_num [rowA, rowB]
  · refine ⟨[rowB, rowA], List.Perm.swap rowA rowB [], ?_, rfl⟩
    refine List.sorted_cons.mpr ⟨?_, List.sorted_singleton _⟩
    intro b hb
    have h2 : b = rowA := by simpa using hb
    subst h2
    norm_num [rowA, rowB]
  · intro h
    have h2 : rowA = rowB := (List.cons_eq_cons.mp h).1
    have h3 : ("A" : String) = "B" := congrArg VopCedRow.cedente h2
    exact absurd h3 (by decide)

/-- C6 witness: the sortedness consequence applied to a concrete singleton
query result. -/
theorem claim_C6_witness :
    ([rowA] : List VopCedRow).Sorted (fun a b => b.vlr_aprovado ≤ a.vlr_aprovado) :=
  claim_C6_amended.1 [rowA] [rowA]
    ⟨[rowA], List.Perm.refl _, List.sorted_singleton _, rfl⟩

/-- C7: the concentration drill-down ORDER BY clause
(flag descending, share descending, amount descending) coincides with the
ordering the spec states, and in every query result the rows that exceed the
threshold appear before all rows that do not. -/
theorem claim_C7_drill_down_order :
    (∀ a b : ConcRow, concOrder a b ↔ specDrillOrder a b) ∧
      (∀ input output : List ConcRow, ∀ n : ℕ, concResultOrdered input output n →
        output.Sorted specDrillOrder ∧
          output.Pairwise
            (fun a b => b.flag_ultrapassa_20 = true → a.flag_ultrapassa_20 = true)) := by
  have hiff : ∀ a b : ConcRow, concOrder a b ↔ specDrillOrder a b := by
    intro a b
    simp only [concOrder, specDrillOrder]
    cases ha : a.flag_ultrapassa_20 <;> cases hb : b.flag_ultrapassa_20 <;>
      simp [Bool.lt_iff]
  refine ⟨hiff, ?_⟩
  rintro input output n ⟨full, _, hsort, rfl⟩
  have hsort2 : (full.take n).Sorted concOrder :=
    List.Pairwise.sublist (List.take_sublist _ _) hsort
  constructor
  · exact hsort2.imp (fun h => (hiff _ _).mp h)
  · refine hsort2.imp ?_
    intro a b hab hbt
    rcases hab with h1 | ⟨h2, _⟩
    · exact (Bool.lt_iff.mp h1).2
    · rw [h2]
      exact hbt

/-- C7 witness: the ordering consequence applied to a concrete singleton
drill-down result. -/
theorem claim_C7_witness :
    ([drillRow] : List ConcRow).Sorted specDrillOrder ∧
      ([drillRow] : List ConcRow).Pairwise
        (fun a b => b.flag_ultrapassa_20 = true → a.flag_ultrapassa_20 = true) :=
  claim_C7_drill_down_order.2 [drillRow] [drillRow] 20
    ⟨[drillRow], List.Perm.refl _, List.sorted_singleton _, rfl⟩

/-- C8: on an empty fetched result every aggregation returns empty outputs
without an exception, and both filterable tabs render the explicit
no-data notice instead of failing. -/
theorem claim_C8_empty_inputs :
    renderRotuloTab [] = Display.info "Sem dados para exibir." ∧
      renderConcTab [] = Display.info "Sem dados para exibir." ∧
      concentracaoView [] = [] ∧
      vopsWhere46 [] = Except.ok [] ∧
      vopsWhere46Safe [] = [] ∧
      (safe_fetch_df (Except.ok [])).1 = [] :=
  ⟨rfl, rfl, rfl, rfl, rfl, rfl⟩

/-- C9 counterexample: `fmt_money` applied to a missing value (a float NaN,
which `pd.isna` recognises as missing) renders the raw text `R$ nan` instead
of an empty string or the `N/D` marker. -/
theorem claim_C9_counterexample :
    isna Val.nan = true ∧ fmt_money Val.nan = "R$ nan" ∧
      fmt_money Val.nan ≠ "" ∧ fmt_money Val.nan ≠ "N/D" :=
  ⟨rfl, rfl, by decide, by decide⟩

/-- C9 amended: a nonnegative numeric amount renders as a currency string
with the `R$ ` prefix, a dot-grouped integer part and exactly two decimals
after the comma; a nonnegative decimal fraction renders as its value times
100 with exactly two decimals and a percent sign; the cell formatters and
the date formatter normalise missing values to the empty string or the
`N/D` marker — but `fmt_money` itself renders None as `R$ 0,00` and NaN as
the raw text `R$ nan`. -/
theorem claim_C9_amended :
    (∀ q : ℚ, 0 ≤ q → ∃ ip fp : String,
        fmt_money (Val.num q) = "R$ " ++ ip ++ "," ++ fp ∧ fp.length = 2 ∧
          (∀ c ∈ fp.data, c.isDigit = true) ∧
          (∀ c ∈ ip.data, c.isDigit = true ∨ c = '.')) ∧
      (∀ q : ℚ, 0 ≤ q → ∃ ip fp : String,
        fmt_pct_cell (Val.num q) = ip ++ "," ++ fp ++ "%" ∧ fp.length = 2 ∧
          (∀ c ∈ ip.data, c.isDigit = true) ∧ (∀ c ∈ fp.data, c.isDigit = true) ∧
          decodeDigits ip.data * 100 + decodeDigits fp.data
            = (roundHalfEven (q * 100 * 100)).toNat) ∧
      (fmt_money_cell Val.none = "" ∧ fmt_money_cell Val.nan = "" ∧
        fmt_pct_cell Val.none = "" ∧ fmt_pct_cell Val.nan = "" ∧
        fmt_dt DtVal.dnone = "N/D" ∧ fmt_dt DtVal.dnan = "N/D" ∧
        fmt_money Val.none = "R$ 0,00" ∧ fmt_money Val.nan = "R$ nan") ∧
      fmt_money (Val.num 1234567) = "R$ 1.234.567,00" ∧
      fmt_pct_cell (Val.num (1 / 5)) = "20,00%" := by
  refine ⟨?_, ?_, ⟨rfl, rfl, rfl, rfl, rfl, rfl, rfl, rfl⟩, ?_, ?_⟩
  · intro q hq
    refine ⟨String.mk ((group3 (natDigits ((roundHalfEven (q * 100)).natAbs / 100))).map mswap),
      twoDigits ((roundHalfEven (q * 100)).natAbs % 100),
      fmt_money_num_eq q hq, twoDigits_length _, twoDigits_isDigit _, ?_⟩
    intro c hc
    exact money_intpart_chars _ c hc
  · intro q hq
    have hn : 0 ≤ roundHalfEven (q * 100 * 100) := roundHalfEven_nonneg (by positivity)
    refine ⟨String.mk (natDigits ((roundHalfEven (q * 100 * 100)).natAbs / 100)),
      twoDigits ((roundHalfEven (q * 100 * 100)).natAbs % 100),
      fmt_pct_num_eq q hq, twoDigits_length _, ?_, twoDigits_isDigit _, ?_⟩
    · intro c hc
      exact natDigits_isDigit _ c hc
    · rw [show (String.mk (natDigits ((roundHalfEven (q * 100 * 100)).natAbs / 100))).data
          = natDigits ((roundHalfEven (q * 100 * 100)).natAbs / 100) from rfl,
        decode_natDigits, decode_twoDigits (Nat.mod_lt _ (by omega))]
      omega
  · have hc : roundHalfEven ((1234567 : ℚ) * 100) = 123456700 := by
      rw [show ((1234567 : ℚ) * 100) = ((123456700 : ℤ) : ℚ) by norm_num]
      exact roundHalfEven_intCast _
    rw [fmt_money_num_eq 1234567 (by norm_num), hc]
    rfl
  · have hc : roundHalfEven ((1 / 5 : ℚ) * 100 * 100) = 2000 := by
      rw [show ((1 / 5 : ℚ) * 100 * 100) = ((2000 : ℤ) : ℚ) by norm_num]
      exact roundHalfEven_intCast _
    rw [fmt_pct_num_eq (1 / 5) (by norm_num), hc]
    rfl

/-- C9 witness: the money structure theorem applied at the concrete amount
one half. -/
theorem claim_C9_witness :
    (0 : ℚ) ≤ 1 / 2 ∧
      (∃ ip fp : String,
        fmt_money (Val.num (1 / 2)) = "R$ " ++ ip ++ "," ++ fp ∧ fp.length = 2 ∧
          (∀ c ∈ fp.data, c.isDigit = true) ∧
          (∀ c ∈ ip.data, c.isDigit = true ∨ c = '.')) :=
  ⟨by norm_num, claim_C9_amended.1 (1 / 2) (by norm_num)⟩

/-- C10: each filter value reaches the executed query only through the
bound-parameter dictionary: the SQL text produced by the three query
builders depends only on whether each filter is present (and on the
checkboxes), never on the content of the filter value or the numeric limit.
-/
theorem claim_C10_parameterized :
    (∀ f1 f2 : String, ∀ ni : Bool, ∀ n1 n2 : ℤ,
        (pyStrip f1 = "" ↔ pyStrip f2 = "") →
        (buildRotuloSql f1 ni n1).1 = (buildRotuloSql f2 ni n2).1) ∧
      (∀ c1 c2 : String, ∀ sa : Bool, ∀ n1 n2 : ℤ,
        (pyStrip c1 = "" ↔ pyStrip c2 = "") →
        (buildConcSql c1 sa n1).1 = (buildConcSql c2 sa n2).1) ∧
      (∀ a1 a2 b1 b2 : String, ∀ inc : Bool,
        (pyStrip a1 = "" ↔ pyStrip a2 = "") →
        (pyStrip b1 = "" ↔ pyStrip b2 = "") →
        (buildVopsSql a1 b1 inc).1 = (buildVopsSql a2 b2 inc).1) := by
  refine ⟨?_, ?_, ?_⟩
  · intro f1 f2 ni n1 n2 h
    by_cases h1 : pyStrip f1 = ""
    · have h2 := h.mp h1
      simp [buildRotuloSql, h1, h2]
    · have h2 : ¬ pyStrip f2 = "" := fun hh => h1 (h.mpr hh)
      simp [buildRotuloSql, h1, h2]
  · intro c1 c2 sa n1 n2 h
    by_cases h1 : pyStrip c1 = ""
    · have h2 := h.mp h1
      simp [buildConcSql, h1, h2]
    · have h2 : ¬ pyStrip c2 = "" := fun hh => h1 (h.mpr hh)
      simp [buildConcSql, h1, h2]
  · intro a1 a2 b1 b2 inc ha hb
    by_cases h1 : pyStrip a1 = ""
    · have h2 := ha.mp h1
      by_cases h3 : pyStrip b1 = ""
      · have h4 := hb.mp h3
        simp [buildVopsSql, h1, h2, h3, h4]
      · have h4 : ¬ pyStrip b2 = "" := fun hh => h3 (hb.mpr hh)
        simp [buildVopsSql, h1, h2, h3, h4]
    · have h2 : ¬ pyStrip a2 = "" := fun hh => h1 (ha.mpr hh)
      by_cases h3 : pyStrip b1 = ""
      · have h4 := hb.mp h3
        simp [buildVopsSql, h1, h2, h3, h4]
      · have h4 : ¬ pyStrip b2 = "" := fun hh => h3 (hb.mpr hh)
        simp [buildVopsSql, h1, h2, h3, h4]

/-- C10 witness: three concrete filter values produce identical SQL text for
each builder. -/
theorem claim_C10_witness :
    (buildRotuloSql "abc" true 50).1 = (buildRotuloSql "zz" true 100).1 ∧
      (buildConcSql "abc" false 500).1 = (buildConcSql "zz" false 500).1 ∧
      (buildVopsSql "a" "1" true).1 = (buildVopsSql "b" "2" true).1 :=
  ⟨claim_C10_parameterized.1 "abc" "zz" true 50 100 (by decide),
    claim_C10_parameterized.2.1 "abc" "zz" false 500 500 (by decide),
    claim_C10_parameterized.2.2 "a" "b" "1" "2" true (by decide) (by decide)⟩

end QProf
